import Mathlib

/-!
Verification of the TigerBridge client library (`tiger_bridge.py`, with its
CLI front-end `cli_example.py`) against its natural-language specification.

The Python code is shallowly embedded: lines and message fields are `List Char`
(Python `str` values), byte sequences are `List Nat` (Python `bytes`), the
handler table `TSPro.__event_dict` is an association list from event id to a
callback identity, and the reader thread's per-line body is a pure function
from the received line and the table to the list of callback invocations it
performs.  A Python callback object is identified by an opaque `Nat`; an
invocation records which callback ran and the argument strings it received.
-/

/-- Python `str.isspace` on the ASCII whitespace characters that
`int(str)` strips before parsing (space, tab, newline, carriage return,
vertical tab, form feed).  Python additionally strips some Unicode
whitespace; no input handled by this client contains any. -/
def isPySpace (c : Char) : Bool :=
  c == ' ' || c == '\t' || c == '\n' || c == '\r' || c == '\x0b' || c == '\x0c'

/-- Python `str.strip()` as applied by `int(str)`: drop leading and trailing
whitespace. -/
def pyStrip (s : List Char) : List Char :=
  ((s.dropWhile isPySpace).reverse.dropWhile isPySpace).reverse

/-- Value of a list of ASCII decimal digit characters, most significant first. -/
def digitsVal (ds : List Char) : Nat :=
  ds.foldl (fun a c => 10 * a + (c.toNat - 48)) 0

/-- Parse a nonempty, all-digit character list to its value; `none` otherwise.
(Python's `int` also accepts `_` separators between digits and non-ASCII
decimal digits; neither occurs in this protocol.) -/
def parseDigits (ds : List Char) : Option Nat :=
  if !ds.isEmpty && ds.all Char.isDigit then some (digitsVal ds) else none

/-- Sign-and-digits part of Python `int(s)`, applied after stripping. -/
def pyIntCore : List Char → Option Int
  | [] => none
  | c :: rest =>
    if c = '+' then (parseDigits rest).map Int.ofNat
    else if c = '-' then (parseDigits rest).map (fun n => -(Int.ofNat n))
    else (parseDigits (c :: rest)).map Int.ofNat

/-- Python `int(s)` on a string: strip surrounding whitespace, accept an
optional sign followed by decimal digits, and raise `ValueError` (here:
`none`) on anything else — e.g. `int("")`, `int("\n")` and `int("abc")`
all raise, while `int("4\n") = 4`. -/
def pyInt? (s : List Char) : Option Int :=
  pyIntCore (pyStrip s)

/-- Worker for `pySplit`; `acc` holds the current segment's characters in
reverse. -/
def pySplitAux (sep : Char) : List Char → List Char → List (List Char)
  | [], acc => [acc.reverse]
  | c :: rest, acc =>
    if c = sep then acc.reverse :: pySplitAux sep rest []
    else pySplitAux sep rest (c :: acc)

/-- Python `str.split(sep)` for a one-character separator: cut at every
occurrence, keeping empty segments; `"".split("|") = [""]`, so the result
is never the empty list. -/
def pySplit (sep : Char) (s : List Char) : List (List Char) :=
  pySplitAux sep s []

/-- The delimiter `TSPro.__delim_char`. -/
def delim_char : Char := '|'

/-- `TSPro.__parse_line` (tiger_bridge.py lines 84-91): split the received
line on the delimiter character.  The line, as returned by `readline()`,
still carries its trailing newline; `__parse_line` does not strip it. -/
def parse_line (line : List Char) : List (List Char) :=
  pySplit delim_char line

/-- Identity of a Python callback object held in `TSPro.__event_dict`.
Every value stored there is a function, so the `callable(...)` test in
`__socket_read` succeeds for every registered entry. -/
abbrev Callback := Nat

/-- `TSPro.__event_dict`: a Python dict from integer event id to callback,
embedded as an association list in insertion order with distinct keys. -/
abbrev EventDict := List (Int × Callback)

/-- One callback invocation performed by the reader thread: the callback
that ran and the argument strings it was passed. -/
abbrev Invocation := Callback × List (List Char)

/-- Python `d[k]` / `k in d` lookup on the embedded dict. -/
def dictLookup : EventDict → Int → Option Callback
  | [], _ => none
  | (k, v) :: rest, i => if k = i then some v else dictLookup rest i

/-- Python `d[k] = v`: replace the value at an existing key in place,
otherwise append the new binding. -/
def dictInsert : EventDict → Int → Callback → EventDict
  | [], k, v => [(k, v)]
  | (k1, v1) :: rest, k, v =>
    if k1 = k then (k, v) :: rest else (k1, v1) :: dictInsert rest k v

/-- Python `del d[k]` once the key is known present: remove the binding. -/
def dictDelete (d : EventDict) (k : Int) : EventDict :=
  d.filter (fun p => p.1 != k)

/-- `TSPro.set_event_hook` (lines 143-152): `self.__event_dict[event_id] = callback`
under the mutex. -/
def set_event_hook (d : EventDict) (event_id : Int) (callback : Callback) : EventDict :=
  dictInsert d event_id callback

/-- A Python exception escaping a TSPro method. -/
inductive PyExn
  | keyError
deriving DecidableEq

/-- `TSPro.remove_event_hook` (lines 154-163): `del self.__event_dict[event_id]`
under the mutex.  Python's `del` raises `KeyError` when the key is absent,
and the method does not catch it. -/
def remove_event_hook (d : EventDict) (event_id : Int) : Except PyExn EventDict :=
  if (dictLookup d event_id).isSome then Except.ok (dictDelete d event_id)
  else Except.error PyExn.keyError

/-- The body of one iteration of `TSPro.__socket_read` (lines 126-141) as a
function of the received line (with its trailing newline) and the handler
table: split the line, try `int(segments[0])` — on `ValueError` the loop
`continue`s having invoked nothing — then, if the id is a registered
(callable) entry, invoke that callback once with `segments[1:]`.
Python's `split` always yields at least one segment, so `segments[0]`
never faults; `headD` mirrors that. -/
def processLine (line : List Char) (d : EventDict) : List Invocation :=
  let segments := parse_line line
  match pyInt? (segments.headD []) with
  | none => []
  | some event_id =>
    match dictLookup d event_id with
    | some cb => [(cb, segments.tail)]
    | none => []

/-- The reader loop run over a sequence of lines delivered by `readline()`
(end-of-stream delivers the empty string), with a fixed handler table:
the concatenation of the invocations of each iteration.  No branch of the
`while True` body ever leaves the loop, so every line is followed by the
processing of the rest. -/
def socket_read_run : List (List Char) → EventDict → List Invocation
  | [], _ => []
  | line :: rest, d => processLine line d ++ socket_read_run rest d

/-- UTF-8 encoding of one code point (Python `str.encode()`). -/
def utf8EncodeChar (c : Char) : List Nat :=
  let n := c.toNat
  if n < 128 then [n]
  else if n < 2048 then [192 + n / 64, 128 + n % 64]
  else if n < 65536 then [224 + n / 4096, 128 + (n / 64) % 64, 128 + n % 64]
  else [240 + n / 262144, 128 + (n / 4096) % 64, 128 + (n / 64) % 64, 128 + n % 64]

/-- Python `str.encode()`: UTF-8 bytes of the string. -/
def utf8Encode (s : List Char) : List Nat :=
  (s.map utf8EncodeChar).flatten

/-- Python `"|".join(parts)`. -/
def pyJoin (sep : Char) : List (List Char) → List Char
  | [] => []
  | [f] => f
  | f :: g :: rest => f ++ sep :: pyJoin sep (g :: rest)

/-- `TSPro.__format_message` (lines 93-106): join the `str()`-converted
arguments with `"|"`, append `"\n"`, and encode.  Arguments enter here as
their Python textual representations (`map(str, args)`). -/
def format_message (args : List (List Char)) : List Nat :=
  utf8Encode (pyJoin delim_char args ++ ['\n'])

/-- Follows the spec's formatting rule verbatim: "convert every field to its
textual representation, join all fields with the delimiter character `|`,
append a single newline terminator, encode as bytes" — stated with the
independent library join `List.intercalate`, to be compared with the
source-derived `format_message`. -/
def spec_formatted (fields : List (List Char)) : List Nat :=
  utf8Encode (List.intercalate [delim_char] fields ++ ['\n'])

/-- `TSPro.request_move_to_position` (lines 165-174): sends
`__format_message("move_to", str(position))`; `position` enters the model
as the textual representation `str(position)` of the Python float. -/
def request_move_to_position (position : List Char) : List Nat :=
  format_message ["move_to".toList, position]

/-- `TSPro.request_stop` (lines 176-183): sends `__format_message("stop")`. -/
def request_stop : List Nat :=
  format_message ["stop".toList]

/-- `TSPro.request_current_position` (lines 185-193). -/
def request_current_position : List Nat :=
  format_message ["get_position".toList]

/-- `TSPro.request_calibrate` (lines 195-203). -/
def request_calibrate (position : List Char) : List Nat :=
  format_message ["calibrate".toList, position]

/-- `TSPro.request_home` (lines 205-212). -/
def request_home : List Nat :=
  format_message ["home".toList]

/-- One shared-state operation performed by a TSPro method, for reasoning
about the scope of `__event_dict_mutex`. -/
inductive LockOp
  | tableLookup
  | acquireLock
  | invokeCallback
  | releaseLock
  | tableMutate
deriving DecidableEq

/-- The straight-line sequence of shared-state operations `__socket_read`
performs for a line whose event id has a registered callback
(tiger_bridge.py lines 137-141): the `event_id in self.__event_dict and
callable(...)` test, then `acquire()`, then the callback call, then
`release()`. -/
def socket_read_dispatch : List LockOp :=
  [LockOp.tableLookup, LockOp.acquireLock, LockOp.invokeCallback, LockOp.releaseLock]

/-- The operations of `set_event_hook` (lines 150-152): acquire, assign,
release.  `remove_event_hook` (lines 161-163) has the same shape. -/
def set_event_hook_ops : List LockOp :=
  [LockOp.acquireLock, LockOp.tableMutate, LockOp.releaseLock]

/-- Whether `__event_dict_mutex` is already held when the operation at
index `i` of a straight-line sequence executes: more acquires than
releases strictly before it. -/
def lockHeldAt (ops : List LockOp) (i : Nat) : Bool :=
  (ops.take i).count LockOp.releaseLock < (ops.take i).count LockOp.acquireLock

/-- The connection-relevant state of a `TSPro` instance: the identity of the
socket object currently held in `self.__socket`, whether a connection
succeeded on it, and whether the reader thread was started. -/
structure ConnState where
  sock : Nat
  connected : Bool
  readerStarted : Bool
deriving DecidableEq

/-- `TSPro.__init__` (lines 76-78): create one fresh socket object (identified
by `fresh`); nothing is connected and no reader thread exists. -/
def TSPro_init (fresh : Nat) : ConnState :=
  ConnState.mk fresh false false

/-- `TSPro.connect` (lines 214-229): attempt `self.__socket.connect(...)` on
the instance's existing socket — `ok` is whether the transport connect
succeeds.  On success it starts the reader thread and returns `True`; on
`socket.error` it prints and returns `False`, touching nothing. -/
def TSPro_connect (s : ConnState) (ok : Bool) : Bool × ConnState :=
  if ok then (true, ConnState.mk s.sock true true)
  else (false, s)

/-- The members of `TSPro.EVENT_CODES` (tiger_bridge.py lines 15-24). -/
def EVENT_CODES : List (String × Int) :=
  [("MOVE_FINISHED", 0), ("RECEIVED_SETTING", 1), ("RECEIVED_POSITION", 2),
   ("ERROR", 3), ("TOOL_ENGAGED", 4), ("TOOL_DISENGAGED", 5)]

/-- The members of `TSPro.MESSAGE_REQUEST_PREFIXES` (lines 57-66):
member name paired with its string value. -/
def MESSAGE_REQUEST_PREFIXES : List (String × String) :=
  [("MOVE_TO_POSITION", "move_to"), ("GET_SETTING", "get_setting"),
   ("GET_POSITION", "get_position"), ("STOP", "stop"),
   ("CALIBRATE", "calibrate"), ("HOME", "home")]

/-- Every method defined on the class `TSPro` in tiger_bridge.py. -/
def TSPro_methods : List String :=
  ["__init__", "__del__", "__parse_line", "__format_message",
   "__send_formatted_message", "__socket_read", "set_event_hook",
   "remove_event_hook", "request_move_to_position", "request_stop",
   "request_current_position", "request_calibrate", "request_home", "connect"]

/-- The `EVENT_CODES` member names that `cli_example.py` (lines 120-128)
passes to `set_event_hook`. -/
def cli_event_hook_names : List String :=
  ["MOVE_FINISHED", "RECEIVED_POSITION", "ERROR", "TOOL_DISENGAGED",
   "TOOL_ENGAGED", "EDGE_DETECT_SENSOR_ACTIVATED",
   "EDGE_DETECT_SENSOR_DEACTIVATED", "DEFECT_SENSOR_ACTIVATED", "DISCONNECTED"]

/-- `cli_example.py parse_command` (lines 52-97): the `TSPro` method the CLI
calls for each recognized first command token (`none` for `exit`, which
terminates the process, and for unrecognized tokens, which print help). -/
def parse_command_target (cmd : String) : Option String :=
  if cmd = "move_to" then some "request_move_to_position"
  else if cmd = "stop" then some "request_stop"
  else if cmd = "get_position" then some "request_current_position"
  else if cmd = "exit" then none
  else if cmd = "home" then some "request_home"
  else if cmd = "calibrate" then some "request_calibrate"
  else if cmd = "get_setting" then some "request_setting"
  else if cmd = "cycle_tool" then some "request_cycle_tool"
  else none


/-! ## Helper lemmas -/

theorem isPySpace_eq_false_of_isDigit (c : Char) (h : c.isDigit = true) :
    isPySpace c = false := by
  by_contra hcon
  have ht : isPySpace c = true := by
    cases hb : isPySpace c
    · exact absurd hb hcon
    · rfl
  simp only [isPySpace, Bool.or_eq_true, beq_iff_eq] at ht
  rcases ht with ((((h1 | h1) | h1) | h1) | h1) | h1 <;> subst h1 <;>
    exact absurd h (by decide)

theorem ne_plus_of_isDigit (c : Char) (h : c.isDigit = true) : c ≠ '+' := by
  intro hc; subst hc; exact absurd h (by decide)

theorem ne_minus_of_isDigit (c : Char) (h : c.isDigit = true) : c ≠ '-' := by
  intro hc; subst hc; exact absurd h (by decide)

theorem delim_not_mem_of_all_digits (l : List Char) (h : l.all Char.isDigit = true) :
    delim_char ∉ l := by
  intro hmem
  have hd := List.all_eq_true.mp h delim_char hmem
  exact absurd hd (by decide)

theorem dropWhile_space_of_all_digits (l : List Char) (h : l.all Char.isDigit = true) :
    l.dropWhile isPySpace = l := by
  cases l with
  | nil => rfl
  | cons c t =>
    have hc : c.isDigit = true := by
      have := List.all_eq_true.mp h c (List.mem_cons_self c t)
      exact this
    simp [List.dropWhile_cons, isPySpace_eq_false_of_isDigit c hc]

theorem pyStrip_digits (ds : List Char) (h : ds.all Char.isDigit = true) :
    pyStrip ds = ds := by
  have hrev : ds.reverse.all Char.isDigit = true := by
    rw [List.all_reverse]; exact h
  unfold pyStrip
  rw [dropWhile_space_of_all_digits ds h, dropWhile_space_of_all_digits ds.reverse hrev,
    List.reverse_reverse]

theorem pyStrip_digits_newline (ds : List Char) (hne : ds ≠ [])
    (h : ds.all Char.isDigit = true) : pyStrip (ds ++ ['\n']) = ds := by
  obtain ⟨c, t, rfl⟩ := List.exists_cons_of_ne_nil hne
  have hc : c.isDigit = true := List.all_eq_true.mp h c (List.mem_cons_self c t)
  have hrev : (t.reverse ++ [c]).all Char.isDigit = true := by
    rw [show t.reverse ++ [c] = (c :: t).reverse by simp, List.all_reverse]
    exact h
  have h1 : ((c :: t) ++ ['\n']).dropWhile isPySpace = (c :: t) ++ ['\n'] := by
    rw [List.cons_append, List.dropWhile_cons, isPySpace_eq_false_of_isDigit c hc]
    simp
  unfold pyStrip
  rw [h1]
  have h2 : ((c :: t) ++ ['\n']).reverse = '\n' :: (t.reverse ++ [c]) := by
    simp
  rw [h2, List.dropWhile_cons]
  rw [show isPySpace '\n' = true from rfl]
  simp only [if_true]
  rw [dropWhile_space_of_all_digits _ hrev]
  simp

theorem parseDigits_of_digits (ds : List Char) (hne : ds ≠ [])
    (h : ds.all Char.isDigit = true) : parseDigits ds = some (digitsVal ds) := by
  have h1 : ds.isEmpty = false := by
    cases ds with
    | nil => exact absurd rfl hne
    | cons c t => rfl
  unfold parseDigits
  rw [h1, h]
  rfl

theorem pyIntCore_of_digits (ds : List Char) (hne : ds ≠ [])
    (h : ds.all Char.isDigit = true) :
    pyIntCore ds = some (Int.ofNat (digitsVal ds)) := by
  obtain ⟨c, t, rfl⟩ := List.exists_cons_of_ne_nil hne
  have hc : c.isDigit = true := List.all_eq_true.mp h c (List.mem_cons_self c t)
  rw [show pyIntCore (c :: t)
      = (if c = '+' then (parseDigits t).map Int.ofNat
         else if c = '-' then (parseDigits t).map (fun n => -(Int.ofNat n))
         else (parseDigits (c :: t)).map Int.ofNat) from rfl]
  rw [if_neg (ne_plus_of_isDigit c hc), if_neg (ne_minus_of_isDigit c hc)]
  rw [parseDigits_of_digits (c :: t) hne h]
  rfl

theorem pyInt?_of_digits (ds : List Char) (hne : ds ≠ [])
    (h : ds.all Char.isDigit = true) :
    pyInt? ds = some (Int.ofNat (digitsVal ds)) := by
  unfold pyInt?
  rw [pyStrip_digits ds h, pyIntCore_of_digits ds hne h]

theorem pyInt?_of_digits_newline (ds : List Char) (hne : ds ≠ [])
    (h : ds.all Char.isDigit = true) :
    pyInt? (ds ++ ['\n']) = some (Int.ofNat (digitsVal ds)) := by
  unfold pyInt?
  rw [pyStrip_digits_newline ds hne h, pyIntCore_of_digits ds hne h]

theorem pySplitAux_of_not_mem (sep : Char) (l : List Char) (h : sep ∉ l)
    (acc : List Char) : pySplitAux sep l acc = [acc.reverse ++ l] := by
  induction l generalizing acc with
  | nil => simp [pySplitAux]
  | cons c t ih =>
    have hcs : ¬ (c = sep) := fun hc => h (hc ▸ List.mem_cons_self c t)
    rw [pySplitAux, if_neg hcs, ih (fun hm => h (List.mem_cons_of_mem c hm))]
    simp

theorem pySplitAux_append_sep (sep : Char) (x rest : List Char) (h : sep ∉ x)
    (acc : List Char) :
    pySplitAux sep (x ++ sep :: rest) acc
      = (acc.reverse ++ x) :: pySplitAux sep rest [] := by
  induction x generalizing acc with
  | nil => simp [pySplitAux]
  | cons c t ih =>
    have hcs : ¬ (c = sep) := fun hc => h (hc ▸ List.mem_cons_self c t)
    rw [List.cons_append, pySplitAux, if_neg hcs,
      ih (fun hm => h (List.mem_cons_of_mem c hm))]
    simp

theorem pySplit_of_not_mem (sep : Char) (l : List Char) (h : sep ∉ l) :
    pySplit sep l = [l] := by
  unfold pySplit
  rw [pySplitAux_of_not_mem sep l h []]
  simp

theorem pySplit_append_sep (sep : Char) (x rest : List Char) (h : sep ∉ x) :
    pySplit sep (x ++ sep :: rest) = x :: pySplit sep rest := by
  unfold pySplit
  rw [pySplitAux_append_sep sep x rest h []]
  simp

theorem processLine_registered (line : List Char) (d : EventDict) (i : Int)
    (cb : Callback) (hid : pyInt? ((parse_line line).headD []) = some i)
    (hcb : dictLookup d i = some cb) :
    processLine line d = [(cb, (parse_line line).tail)] := by
  simp only [processLine, hid, hcb]

theorem dictLookup_insert_self (d : EventDict) (k : Int) (v : Callback) :
    dictLookup (dictInsert d k v) k = some v := by
  induction d with
  | nil => simp [dictInsert, dictLookup]
  | cons p rest ih =>
    obtain ⟨k1, v1⟩ := p
    by_cases hk : k1 = k
    · subst hk
      simp [dictInsert, dictLookup]
    · simp [dictInsert, dictLookup, hk, ih]

theorem dictInsert_insert_same (d : EventDict) (k : Int) (v1 v2 : Callback) :
    dictInsert (dictInsert d k v1) k v2 = dictInsert d k v2 := by
  induction d with
  | nil => simp [dictInsert]
  | cons p rest ih =>
    obtain ⟨k1, w⟩ := p
    by_cases hk : k1 = k
    · subst hk
      simp [dictInsert]
    · simp [dictInsert, hk, ih]

theorem not_mem_keys_insert (d : EventDict) (k x : Int) (v : Callback) :
    x ∉ d.map Prod.fst → x ≠ k → x ∉ (dictInsert d k v).map Prod.fst := by
  induction d with
  | nil =>
    intro _ hxk
    simpa [dictInsert] using hxk
  | cons p rest ih =>
    obtain ⟨k1, w⟩ := p
    intro hx hxk
    simp only [List.map_cons, List.mem_cons, not_or] at hx
    obtain ⟨hx1, hx2⟩ := hx
    by_cases hk : k1 = k
    · rw [show dictInsert ((k1, w) :: rest) k v = (k, v) :: rest from by
        simp [dictInsert, hk]]
      simp only [List.map_cons, List.mem_cons, not_or]
      exact ⟨hxk, hx2⟩
    · rw [show dictInsert ((k1, w) :: rest) k v = (k1, w) :: dictInsert rest k v from by
        simp [dictInsert, hk]]
      simp only [List.map_cons, List.mem_cons, not_or]
      exact ⟨hx1, ih hx2 hxk⟩

theorem keys_nodup_insert (d : EventDict) (k : Int) (v : Callback) :
    (d.map Prod.fst).Nodup → ((dictInsert d k v).map Prod.fst).Nodup := by
  induction d with
  | nil =>
    intro _
    simp [dictInsert]
  | cons p rest ih =>
    obtain ⟨k1, w⟩ := p
    intro h
    simp only [List.map_cons, List.nodup_cons] at h
    obtain ⟨h1, h2⟩ := h
    by_cases hk : k1 = k
    · rw [show dictInsert ((k1, w) :: rest) k v = (k, v) :: rest from by
        simp [dictInsert, hk]]
      simp only [List.map_cons, List.nodup_cons]
      exact ⟨hk ▸ h1, h2⟩
    · rw [show dictInsert ((k1, w) :: rest) k v = (k1, w) :: dictInsert rest k v from by
        simp [dictInsert, hk]]
      simp only [List.map_cons, List.nodup_cons]
      exact ⟨not_mem_keys_insert rest k k1 v h1 hk, ih h2⟩

theorem dictLookup_delete_self (d : EventDict) (k : Int) :
    dictLookup (dictDelete d k) k = none := by
  induction d with
  | nil => rfl
  | cons p rest ih =>
    obtain ⟨k1, w⟩ := p
    by_cases hk : k1 = k
    · subst hk
      simpa [dictDelete, List.filter_cons] using ih
    · simp only [dictDelete, List.filter_cons] at ih ⊢
      simp [bne_iff_ne, hk, dictLookup, ih]

theorem dictLookup_delete_other (d : EventDict) (k j : Int) (hjk : j ≠ k) :
    dictLookup (dictDelete d k) j = dictLookup d j := by
  induction d with
  | nil => rfl
  | cons p rest ih =>
    obtain ⟨k1, w⟩ := p
    by_cases hk : k1 = k
    · have hkj : ¬ (k = j) := fun hh => hjk hh.symm
      simp only [dictDelete, List.filter_cons] at ih ⊢
      simp [bne_iff_ne, hk, dictLookup, hkj, ih]
    · by_cases hj : k1 = j
      · simp only [dictDelete, List.filter_cons] at ih ⊢
        simp [bne_iff_ne, hk, hj, dictLookup, hjk]
      · simp only [dictDelete, List.filter_cons] at ih ⊢
        simp [bne_iff_ne, hk, hj, dictLookup, ih]

theorem pyJoin_eq_intercalate (sep : Char) (xs : List (List Char)) :
    pyJoin sep xs = List.intercalate [sep] xs := by
  induction xs with
  | nil => simp [pyJoin, List.intercalate]
  | cons f t ih =>
    cases t with
    | nil => simp [pyJoin, List.intercalate, List.intersperse]
    | cons g r =>
      rw [show pyJoin sep (f :: g :: r) = f ++ sep :: pyJoin sep (g :: r) from rfl]
      rw [ih]
      simp [List.intercalate, List.intersperse]

/-! ## Claim theorems -/

/-- C1: for every outbound request operation and every field list, the byte
sequence produced and sent is exactly each field's textual representation,
all fields joined by the delimiter, followed by a single trailing newline,
then encoded; move-to with position 12.5 yields the bytes of
"move_to|12.5\n" and stop yields the bytes of "stop\n". -/
theorem outbound_format_matches_spec :
    (∀ fields, format_message fields = spec_formatted fields)
    ∧ request_move_to_position "12.5".toList = utf8Encode "move_to|12.5\n".toList
    ∧ request_stop = utf8Encode "stop\n".toList := by
  refine ⟨?_, by decide, by decide⟩
  intro fields
  unfold format_message spec_formatted
  rw [pyJoin_eq_intercalate]

/-- C2 counterexample: for the inbound line "7|a|b|c\n" with a callback
registered for id 7, the callback receives ["a", "b", "c\n"] — the final
argument keeps the line terminator — and not ["a", "b", "c"]. -/
theorem dispatch_args_keep_newline :
    processLine "7|a|b|c\n".toList [(7, 99)]
      = [(99, ["a".toList, "b".toList, "c\n".toList])]
    ∧ processLine "7|a|b|c\n".toList [(7, 99)]
      ≠ [(99, ["a".toList, "b".toList, "c".toList])] := by
  exact ⟨by decide, by decide⟩

/-- C2 (amended): for every inbound line "<id>|a|b|c\n" whose id has a
registered callback, the reader invokes that callback exactly once with the
delimiter-separated segments after the first, as strings in original
left-to-right order — except that the final segment retains the trailing
newline, because the line is split without stripping its terminator. -/
theorem registered_event_invokes_callback_once (ds a b c : List Char)
    (cb : Callback) (d : EventDict) (h1 : ds ≠ [])
    (h2 : ds.all Char.isDigit = true) (ha : delim_char ∉ a)
    (hb : delim_char ∉ b) (hc : delim_char ∉ c)
    (hcb : dictLookup d (Int.ofNat (digitsVal ds)) = some cb) :
    processLine
        (ds ++ delim_char :: (a ++ delim_char :: (b ++ delim_char :: (c ++ ['\n'])))) d
      = [(cb, [a, b, c ++ ['\n']])] := by
  have hds : delim_char ∉ ds := delim_not_mem_of_all_digits ds h2
  have hcn : delim_char ∉ c ++ ['\n'] := by
    intro hm
    rcases List.mem_append.mp hm with hm | hm
    · exact hc hm
    · simp only [List.mem_singleton] at hm
      exact absurd hm (by decide)
  have hsplit : parse_line
      (ds ++ delim_char :: (a ++ delim_char :: (b ++ delim_char :: (c ++ ['\n']))))
      = [ds, a, b, c ++ ['\n']] := by
    unfold parse_line
    rw [pySplit_append_sep delim_char ds _ hds,
      pySplit_append_sep delim_char a _ ha,
      pySplit_append_sep delim_char b _ hb,
      pySplit_of_not_mem delim_char _ hcn]
  have hid : pyInt? ((parse_line
      (ds ++ delim_char :: (a ++ delim_char :: (b ++ delim_char :: (c ++ ['\n']))))).headD [])
      = some (Int.ofNat (digitsVal ds)) := by
    rw [hsplit]
    exact pyInt?_of_digits ds h1 h2
  rw [processLine_registered _ d _ cb hid hcb, hsplit]
  rfl

/-- C2 amended witness: the line "7|a|b|c\n" with callback 99 registered for
id 7 receives the arguments ["a", "b", "c\n"]. -/
theorem registered_event_invokes_callback_once_witness :
    (['7'] : List Char) ≠ []
    ∧ (['7'] : List Char).all Char.isDigit = true
    ∧ delim_char ∉ (['a'] : List Char)
    ∧ dictLookup [((7 : Int), (99 : Callback))] (Int.ofNat (digitsVal ['7'])) = some 99
    ∧ processLine
        (['7'] ++ delim_char :: (['a'] ++ delim_char :: (['b'] ++ delim_char :: (['c'] ++ ['\n']))))
        [((7 : Int), (99 : Callback))]
      = [(99, [['a'], ['b'], ['c'] ++ ['\n']])] := by
  refine ⟨by decide, by decide, by decide, by decide, ?_⟩
  exact registered_event_invokes_callback_once ['7'] ['a'] ['b'] ['c'] 99 _
    (by decide) (by decide) (by decide) (by decide) (by decide) (by decide)

/-- C3 counterexample: in the reader's dispatch sequence the callback call
sits at index 2, and the handler-table mutex is held when it runs — the
reader does not release the lock while a callback runs. -/
theorem callback_outside_lock_refuted :
    socket_read_dispatch[2]? = some LockOp.invokeCallback
    ∧ ¬ (lockHeldAt socket_read_dispatch 2 = false) := by
  exact ⟨by decide, by decide⟩

/-- C3 (amended): the reader acquires `__event_dict_mutex` immediately
before invoking the callback and releases it only after the callback
returns, so the lock is held for the callback's full duration; the table
membership test happens before the acquire, outside the lock; and
`set_event_hook` acquires the same lock for its mutation, so a slow or
blocking callback stalls registration from the caller thread. -/
theorem reader_holds_lock_during_callback :
    socket_read_dispatch[0]? = some LockOp.tableLookup
    ∧ lockHeldAt socket_read_dispatch 0 = false
    ∧ socket_read_dispatch[2]? = some LockOp.invokeCallback
    ∧ lockHeldAt socket_read_dispatch 2 = true
    ∧ lockHeldAt socket_read_dispatch 3 = true
    ∧ set_event_hook_ops[0]? = some LockOp.acquireLock
    ∧ lockHeldAt set_event_hook_ops 1 = true := by
  decide

/-- C4: an inbound line whose first delimiter-separated segment does not
parse as an integer invokes no callback, propagates no exception (the
ValueError is caught and turned into `continue`), and the reader loop
continues with the subsequent lines unchanged. -/
theorem malformed_line_silently_discarded (line : List Char) (d : EventDict)
    (h : pyInt? ((parse_line line).headD []) = none) :
    processLine line d = []
    ∧ ∀ rest, socket_read_run (line :: rest) d = socket_read_run rest d := by
  have hp : processLine line d = [] := by
    simp only [processLine, h]
  refine ⟨hp, fun rest => ?_⟩
  simp only [socket_read_run, hp, List.nil_append]

/-- C4 witness at the garbage line "abc|x\n" followed by the empty line
"\n", with a callback registered for id 3. -/
theorem malformed_line_silently_discarded_witness :
    pyInt? ((parse_line "abc|x\n".toList).headD []) = none
    ∧ processLine "abc|x\n".toList [((3 : Int), (7 : Callback))] = []
    ∧ socket_read_run ["abc|x\n".toList, "\n".toList] [((3 : Int), (7 : Callback))]
      = socket_read_run ["\n".toList] [((3 : Int), (7 : Callback))] := by
  have h : pyInt? ((parse_line "abc|x\n".toList).headD []) = none := by decide
  exact ⟨h, (malformed_line_silently_discarded _ _ h).1,
    (malformed_line_silently_discarded _ _ h).2 _⟩

/-- C5 counterexample: removing an event hook that was never registered is
not a no-op — `del self.__event_dict[event_id]` raises KeyError on the
empty handler table, and `remove_event_hook` lets it propagate. -/
theorem remove_absent_hook_raises :
    remove_event_hook [] 0 = Except.error PyExn.keyError := by
  rfl

/-- C5 (amended): `remove_event_hook` on a registered id succeeds, removes
exactly that id's callback and leaves every other id's callback unchanged;
on an id with no registered callback it raises KeyError to the caller
instead of being a no-op. -/
theorem remove_event_hook_behavior (d : EventDict) (i : Int) :
    (dictLookup d i = none → remove_event_hook d i = Except.error PyExn.keyError)
    ∧ (∀ c, dictLookup d i = some c →
        remove_event_hook d i = Except.ok (dictDelete d i)
        ∧ dictLookup (dictDelete d i) i = none
        ∧ ∀ j, j ≠ i → dictLookup (dictDelete d i) j = dictLookup d j) := by
  constructor
  · intro h
    unfold remove_event_hook
    rw [h]
    rfl
  · intro c h
    refine ⟨?_, dictLookup_delete_self d i,
      fun j hj => dictLookup_delete_other d i j hj⟩
    unfold remove_event_hook
    rw [h]
    rfl

/-- C5 amended witness: on the table mapping 1 to 5 and 2 to 6, removing
id 1 succeeds and leaves the callback for id 2 in place. -/
theorem remove_event_hook_behavior_witness :
    remove_event_hook [((1 : Int), (5 : Callback)), (2, 6)] 1
      = Except.ok (dictDelete [((1 : Int), (5 : Callback)), (2, 6)] 1)
    ∧ dictLookup (dictDelete [((1 : Int), (5 : Callback)), (2, 6)] 1) 1 = none
    ∧ dictLookup (dictDelete [((1 : Int), (5 : Callback)), (2, 6)] 1) 2
      = dictLookup [((1 : Int), (5 : Callback)), (2, 6)] 2 := by
  have h := (remove_event_hook_behavior [((1 : Int), (5 : Callback)), (2, 6)] 1).2
    5 (by decide)
  exact ⟨h.1, h.2.1, h.2.2 2 (by decide)⟩

/-- C6: at end-of-stream `readline()` returns "", and the reader does not
terminate: `int("")` raises ValueError, the pseudo-line is discarded and
the `while True` loop continues (a busy spin re-reading ""); no callback
fires for it and no disconnection notification can fire — `cli_example.py`
registers a handler under the name DISCONNECTED, but `TSPro.EVENT_CODES`
defines no such member, so the claimed dedicated disconnect signal does not
exist in the client. -/
theorem eof_loops_without_disconnect_signal (d : EventDict)
    (rest : List (List Char)) :
    processLine [] d = []
    ∧ socket_read_run ([] :: rest) d = socket_read_run rest d
    ∧ "DISCONNECTED" ∈ cli_event_hook_names
    ∧ "DISCONNECTED" ∉ EVENT_CODES.map Prod.fst := by
  have hp : processLine ([] : List Char) d = [] := rfl
  refine ⟨hp, ?_, by decide, by decide⟩
  simp only [socket_read_run, hp, List.nil_append]

/-- C7: the handler table keeps at most one callback per id and
`set_event_hook` preserves that invariant; registering for an id that
already has a callback replaces it, registering twice for the same id
equals registering only the second callback, and a subsequent matching
event dispatches only to the most recently registered callback. -/
theorem set_event_hook_overwrites (d : EventDict) (i : Int) (c1 c2 : Callback)
    (h : (d.map Prod.fst).Nodup) :
    ((set_event_hook d i c1).map Prod.fst).Nodup
    ∧ set_event_hook (set_event_hook d i c1) i c2 = set_event_hook d i c2
    ∧ dictLookup (set_event_hook d i c2) i = some c2
    ∧ ∀ line, processLine line (set_event_hook (set_event_hook d i c1) i c2)
        = processLine line (set_event_hook d i c2) := by
  refine ⟨keys_nodup_insert d i c1 h, dictInsert_insert_same d i c1 c2,
    dictLookup_insert_self d i c2, fun line => ?_⟩
  rw [show set_event_hook (set_event_hook d i c1) i c2 = set_event_hook d i c2
    from dictInsert_insert_same d i c1 c2]

/-- C7 witness on the table mapping 1 to 5: registering 7 then 9 for id 2
behaves as registering only 9, and dispatch of "2|x" sees only 9. -/
theorem set_event_hook_overwrites_witness :
    ((set_event_hook [((1 : Int), (5 : Callback))] 2 7).map Prod.fst).Nodup
    ∧ set_event_hook (set_event_hook [((1 : Int), (5 : Callback))] 2 7) 2 9
      = set_event_hook [((1 : Int), (5 : Callback))] 2 9
    ∧ dictLookup (set_event_hook [((1 : Int), (5 : Callback))] 2 9) 2 = some 9
    ∧ processLine "2|x\n".toList
        (set_event_hook (set_event_hook [((1 : Int), (5 : Callback))] 2 7) 2 9)
      = processLine "2|x\n".toList (set_event_hook [((1 : Int), (5 : Callback))] 2 9) := by
  have h := set_event_hook_overwrites [((1 : Int), (5 : Callback))] 2 7 9 (by decide)
  exact ⟨h.1, h.2.1, h.2.2.1, h.2.2.2 _⟩

/-- C8 counterexample: two successive failed connect attempts both operate
on the one socket object created by `__init__` — `connect` never creates a
fresh socket, refuting "each connect attempt creates a fresh underlying
socket". -/
theorem failed_connect_keeps_same_socket :
    (TSPro_connect (TSPro_init 0) false).1 = false
    ∧ ((TSPro_connect (TSPro_init 0) false).2).sock = (TSPro_init 0).sock
    ∧ ((TSPro_connect ((TSPro_connect (TSPro_init 0) false).2) false).2).sock
      = (TSPro_init 0).sock := by
  exact ⟨rfl, rfl, rfl⟩

/-- C8 (amended): a connect attempt that encounters a transport error
returns False and leaves the client state exactly as it was — not
connected, reader thread not started — so the caller may retry connect;
but every attempt (failing or succeeding) reuses the single socket object
created by `__init__`, and no attempt replaces it with a fresh one. -/
theorem connect_failure_state (s : ConnState) (ok : Bool) :
    TSPro_connect s false = (false, s)
    ∧ ((TSPro_connect s ok).2).sock = s.sock := by
  constructor
  · rfl
  · cases ok
    · rfl
    · rfl

/-- C9: the public API does not provide the get-setting and cycle-tool
request operations: `cli_example.py` dispatches the `get_setting` and
`cycle_tool` commands to methods named `request_setting` and
`request_cycle_tool`, but the class `TSPro` defines neither method (an
AttributeError at runtime), and `MESSAGE_REQUEST_PREFIXES` carries a
`get_setting` token yet no `cycle_tool` token. -/
theorem cli_targets_missing_request_methods :
    parse_command_target "get_setting" = some "request_setting"
    ∧ parse_command_target "cycle_tool" = some "request_cycle_tool"
    ∧ "request_setting" ∉ TSPro_methods
    ∧ "request_cycle_tool" ∉ TSPro_methods
    ∧ "get_setting" ∈ MESSAGE_REQUEST_PREFIXES.map Prod.snd
    ∧ "cycle_tool" ∉ MESSAGE_REQUEST_PREFIXES.map Prod.snd := by
  refine ⟨by decide, by decide, by decide, by decide, by decide, by decide⟩

/-- C10: an inbound line consisting of only a decimal id followed by the
line terminator (no delimiter) still dispatches: `int` tolerates the
surrounding whitespace including the trailing newline, so the registered
callback for that id is invoked with an empty argument list rather than
the line being discarded. -/
theorem bare_id_line_dispatches (ds : List Char) (cb : Callback)
    (d : EventDict) (h1 : ds ≠ []) (h2 : ds.all Char.isDigit = true)
    (hcb : dictLookup d (Int.ofNat (digitsVal ds)) = some cb) :
    processLine (ds ++ ['\n']) d = [(cb, [])] := by
  have hnm : delim_char ∉ ds ++ ['\n'] := by
    intro hm
    rcases List.mem_append.mp hm with hm | hm
    · exact delim_not_mem_of_all_digits ds h2 hm
    · simp only [List.mem_singleton] at hm
      exact absurd hm (by decide)
  have hsplit : parse_line (ds ++ ['\n']) = [ds ++ ['\n']] := by
    unfold parse_line
    exact pySplit_of_not_mem delim_char _ hnm
  have hid : pyInt? ((parse_line (ds ++ ['\n'])).headD [])
      = some (Int.ofNat (digitsVal ds)) := by
    rw [hsplit]
    exact pyInt?_of_digits_newline ds h1 h2
  rw [processLine_registered _ d _ cb hid hcb, hsplit]
  rfl

/-- C10 witness: the line "4\n" with callback 7 registered for id 4 invokes
that callback with no arguments. -/
theorem bare_id_line_dispatches_witness :
    (['4'] : List Char) ≠ []
    ∧ (['4'] : List Char).all Char.isDigit = true
    ∧ dictLookup [((4 : Int), (7 : Callback))] (Int.ofNat (digitsVal ['4'])) = some 7
    ∧ processLine (['4'] ++ ['\n']) [((4 : Int), (7 : Callback))] = [(7, [])] := by
  refine ⟨by decide, by decide, by decide, ?_⟩
  exact bare_id_line_dispatches ['4'] 7 _ (by decide) (by decide) (by decide)
